import Mathlib

/-!
Shallow embedding of the conversation assignment and routing subsystem of the
graos-backend repository, together with proofs settling the frozen claims
about its specification.

The embedding follows the TypeScript source:
* `ConversationAssignment` entity (src/crm/entities/conversation-assignment.entity.ts)
  with its helper methods `calculateResponseTime`, `calculateResolutionTime`,
  `updateResponseMetrics`, `complete`, `transfer`, `escalate`;
* `ConversationAssignmentRepository` (the Assignment Ledger): `create`,
  `findById`, `findActiveByConversationId`, `updateStatus`, `recordResponse`,
  `complete`, `transfer`, `escalate`;
* `User` entity and `UserRepository.findLeastBusyAgent` / `updateChatCount`;
* `Team` entity (`getAvailableMembers`, `calculateTeamCapacity`,
  `getNextAgentByMethod`) and `TeamRepository.getTeamCapacity`.

Database state is modelled as an explicit list of rows; `new Date()` is
modelled by an explicit `now : Rat` parameter holding a timestamp in
milliseconds (the JS `Date.getTime()` scale, so that the source's
`/ (1000 * 60)` conversions to minutes are exact over `Rat`).  Nullable
columns are `Option`-valued; JavaScript truthiness tests on nullable numeric
and string values (`if (assignment.responseTimeMinutes)`, `if (rating)`)
are modelled by explicit truthiness functions, since `0`, `''`, `null` and
`undefined` are all falsy in JavaScript.
-/

/-- `AssignmentStatus` enum of the ConversationAssignment entity. -/
inductive AssignmentStatus
  | active
  | completed
  | transferred
  | escalated
  | abandoned
deriving DecidableEq, Repr

/-- `AssignmentPriority` enum. -/
inductive AssignmentPriority
  | low
  | normal
  | high
  | urgent
deriving DecidableEq, Repr

/-- `AssignmentType` enum. -/
inductive AssignmentType
  | auto
  | manual
  | transfer
  | escalation
deriving DecidableEq, Repr

/-- The `ConversationAssignment` entity.  Rows are keyed by a numeric `id`
(the source uses uuids; only distinctness matters).  Timestamps are in
milliseconds.  Fields not referenced by any repository operation under
verification (`notes`, `metadata`, `createdAt`, `updatedAt`) are omitted. -/
structure ConversationAssignment where
  id : Nat
  conversationId : String
  whatsappInstanceId : String
  userId : String
  status : AssignmentStatus
  priority : AssignmentPriority
  assignmentType : AssignmentType
  assignedBy : Option String
  transferredFrom : Option String
  transferredTo : Option String
  assignmentReason : Option String
  assignedAt : Rat
  firstResponseAt : Option Rat
  lastResponseAt : Option Rat
  completedAt : Option Rat
  responseCount : Nat
  responseTimeMinutes : Option Rat
  resolutionTimeMinutes : Option Rat
  customerRating : Option Nat
  customerFeedback : Option String
  supervisorRating : Option Nat
  supervisorFeedback : Option String
  contactName : Option String
  contactPhone : Option String
  contactType : Option String
  tags : Option (List String)
  category : Option String
  subcategory : Option String
deriving DecidableEq, Repr

namespace ConversationAssignment

/-- Entity helper `isActive()`. -/
def isActive (a : ConversationAssignment) : Bool :=
  a.status = AssignmentStatus.active

/-- Entity helper `calculateResponseTime()`:
`if (!this.firstResponseAt || !this.assignedAt) return 0;`
then `(firstResponseAt - assignedAt) / (1000 * 60)`.
(`assignedAt` is a non-nullable column; a JS `Date` object is always truthy,
so only the `firstResponseAt` null test is live.) -/
def calculateResponseTime (a : ConversationAssignment) : Rat :=
  match a.firstResponseAt with
  | none => 0
  | some fr => (fr - a.assignedAt) / (1000 * 60)

/-- Entity helper `calculateResolutionTime()`:
`if (!this.completedAt || !this.assignedAt) return 0;`
then `(completedAt - assignedAt) / (1000 * 60)`. -/
def calculateResolutionTime (a : ConversationAssignment) : Rat :=
  match a.completedAt with
  | none => 0
  | some c => (c - a.assignedAt) / (1000 * 60)

end ConversationAssignment

/-- JavaScript truthiness of a nullable numeric value: `null`/`undefined`
and `0` are falsy. -/
def jsTruthyQ : Option Rat → Bool
  | none => false
  | some v => v != 0

/-- JavaScript truthiness of a nullable integer value. -/
def jsTruthyNat : Option Nat → Bool
  | none => false
  | some v => v != 0

/-- JavaScript truthiness of a nullable string: `null`/`undefined` and the
empty string are falsy. -/
def jsTruthyStr : Option String → Bool
  | none => false
  | some s => s != ""

/-- The data a caller passes to `ConversationAssignmentRepository.create`
(`Partial<ConversationAssignment>`), restricted to the fields the callers in
the source supply.  Unsupplied columns take the entity's column defaults
(`status = ACTIVE`, `priority = NORMAL`, `assignmentType = AUTO`,
`responseCount = 0`, nullable columns `null`). -/
structure AssignmentDraft where
  conversationId : String
  whatsappInstanceId : String
  userId : String
  priority : AssignmentPriority := AssignmentPriority.normal
  assignmentType : AssignmentType := AssignmentType.auto
  transferredFrom : Option String := none
  assignmentReason : Option String := none
  contactName : Option String := none
  contactPhone : Option String := none
  contactType : Option String := none
  category : Option String := none
  subcategory : Option String := none
  tags : Option (List String) := none
deriving DecidableEq, Repr

/-- The Assignment Ledger's backing table: the stored rows plus the id the
next inserted row receives. -/
structure LedgerState where
  rows : List ConversationAssignment
  nextId : Nat
deriving DecidableEq, Repr

namespace AssignmentRepo

/-- `repository.update(id, partial)`: apply an update function to the row
with the given id (TypeORM updates by primary key). -/
def updateRow (st : LedgerState) (id : Nat)
    (f : ConversationAssignment → ConversationAssignment) : LedgerState :=
  { st with rows := st.rows.map (fun r => if r.id == id then f r else r) }

/-- `ConversationAssignmentRepository.create`: builds the entity from the
supplied data with `assignedAt = new Date()` and saves it.  There is no
check of any kind against existing rows. -/
def create (st : LedgerState) (d : AssignmentDraft) (now : Rat) :
    ConversationAssignment × LedgerState :=
  let a : ConversationAssignment :=
    { id := st.nextId
      conversationId := d.conversationId
      whatsappInstanceId := d.whatsappInstanceId
      userId := d.userId
      status := AssignmentStatus.active
      priority := d.priority
      assignmentType := d.assignmentType
      assignedBy := none
      transferredFrom := d.transferredFrom
      transferredTo := none
      assignmentReason := d.assignmentReason
      assignedAt := now
      firstResponseAt := none
      lastResponseAt := none
      completedAt := none
      responseCount := 0
      responseTimeMinutes := none
      resolutionTimeMinutes := none
      customerRating := none
      customerFeedback := none
      supervisorRating := none
      supervisorFeedback := none
      contactName := d.contactName
      contactPhone := d.contactPhone
      contactType := d.contactType
      tags := d.tags
      category := d.category
      subcategory := d.subcategory }
  (a, { rows := st.rows ++ [a], nextId := st.nextId + 1 })

/-- `findById`. -/
def findById (st : LedgerState) (id : Nat) : Option ConversationAssignment :=
  st.rows.find? (fun r => r.id == id)

/-- `findActiveByConversationId`: first row matching the conversation id
with status ACTIVE. -/
def findActiveByConversationId (st : LedgerState) (conversationId : String) :
    Option ConversationAssignment :=
  st.rows.find? (fun r =>
    r.conversationId == conversationId && decide (r.status = AssignmentStatus.active))

/-- `updateStatus(id, status)`: sets the status, and `completedAt = now`
only when the new status is COMPLETED; returns `findById(id)`. -/
def updateStatus (st : LedgerState) (id : Nat) (status : AssignmentStatus)
    (now : Rat) : Option ConversationAssignment × LedgerState :=
  let st1 := updateRow st id (fun r =>
    if status = AssignmentStatus.completed then
      { r with status := status, completedAt := some now }
    else
      { r with status := status })
  (findById st1 id, st1)

/-- `recordResponse(id, responseTime?)`.  Reads the row, then builds the
update data: always `responseCount + 1` and `lastResponseAt = now`; if
`firstResponseAt` was unset, also `firstResponseAt = now` and
`responseTimeMinutes = assignment.calculateResponseTime()` — computed on
the row as read, whose `firstResponseAt` is still null; when an explicit
`responseTime` is supplied it overwrites `responseTimeMinutes` with
`(old + responseTime) / 2` when the stored value is truthy, else with
`responseTime` itself. -/
def recordResponse (st : LedgerState) (id : Nat) (responseTime : Option Rat)
    (now : Rat) : Option ConversationAssignment × LedgerState :=
  match findById st id with
  | none => (none, st)
  | some assignment =>
    let isFirst : Bool := assignment.firstResponseAt.isNone
    let rtm : Option Rat :=
      match responseTime with
      | some s =>
        if jsTruthyQ assignment.responseTimeMinutes then
          some ((assignment.responseTimeMinutes.getD 0 + s) / 2)
        else
          some s
      | none =>
        if isFirst then some assignment.calculateResponseTime
        else assignment.responseTimeMinutes
    let st1 := updateRow st id (fun r =>
      { r with
        responseCount := assignment.responseCount + 1
        lastResponseAt := some now
        firstResponseAt := if isFirst then some now else r.firstResponseAt
        responseTimeMinutes := rtm })
    (findById st1 id, st1)

/-- `complete(id, rating?, feedback?, supervisorRating?, supervisorFeedback?)`.
Reads the row, then updates `status = COMPLETED`, `completedAt = now`, and
`resolutionTimeMinutes = assignment.calculateResolutionTime()` — computed on
the row as read, whose `completedAt` is still its old value; the optional
feedback fields are written only when truthy (`if (rating) ...`). -/
def complete (st : LedgerState) (id : Nat)
    (rating : Option Nat) (feedback : Option String)
    (supervisorRating : Option Nat) (supervisorFeedback : Option String)
    (now : Rat) : Option ConversationAssignment × LedgerState :=
  match findById st id with
  | none => (none, st)
  | some assignment =>
    let st1 := updateRow st id (fun r =>
      { r with
        status := AssignmentStatus.completed
        completedAt := some now
        resolutionTimeMinutes := some assignment.calculateResolutionTime
        customerRating := if jsTruthyNat rating then rating else r.customerRating
        customerFeedback := if jsTruthyStr feedback then feedback else r.customerFeedback
        supervisorRating := if jsTruthyNat supervisorRating then supervisorRating else r.supervisorRating
        supervisorFeedback := if jsTruthyStr supervisorFeedback then supervisorFeedback else r.supervisorFeedback })
    (findById st1 id, st1)

/-- The closing update `transfer` applies to the predecessor row.  (TypeORM's
`update` skips `undefined` values, so an absent `reason` leaves the stored
`assignmentReason` unchanged.) -/
def closeForTransfer (toUserId : String) (reason : Option String) (now : Rat)
    (r : ConversationAssignment) : ConversationAssignment :=
  { r with
    status := AssignmentStatus.transferred
    transferredTo := some toUserId
    assignmentReason := match reason with | some s => some s | none => r.assignmentReason
    completedAt := some now }

/-- The draft `transfer` passes to `create` for the successor row. -/
def transferDraft (assignment : ConversationAssignment) (toUserId : String)
    (reason : Option String) : AssignmentDraft :=
  { conversationId := assignment.conversationId
    whatsappInstanceId := assignment.whatsappInstanceId
    userId := toUserId
    priority := assignment.priority
    assignmentType := AssignmentType.transfer
    transferredFrom := some assignment.userId
    assignmentReason := reason
    contactName := assignment.contactName
    contactPhone := assignment.contactPhone
    contactType := assignment.contactType
    category := assignment.category
    subcategory := assignment.subcategory
    tags := assignment.tags }

/-- `transfer(id, toUserId, reason?)`: closes the current row as TRANSFERRED
with `transferredTo` and `completedAt = now`, then creates a new row carrying
over conversation, instance, priority, contact snapshot, category and tags,
with `assignmentType = 'transfer'` and `transferredFrom` set; returns the new
row.  No status check is made on the source row. -/
def transfer (st : LedgerState) (id : Nat) (toUserId : String)
    (reason : Option String) (now : Rat) :
    Option ConversationAssignment × LedgerState :=
  match findById st id with
  | none => (none, st)
  | some assignment =>
    let st1 := updateRow st id (closeForTransfer toUserId reason now)
    let res := create st1 (transferDraft assignment toUserId reason) now
    (some res.1, res.2)

/-- The closing update `escalate` applies to the predecessor row: identical
to `closeForTransfer` except the status is ESCALATED. -/
def closeForEscalation (toUserId : String) (reason : Option String) (now : Rat)
    (r : ConversationAssignment) : ConversationAssignment :=
  { r with
    status := AssignmentStatus.escalated
    transferredTo := some toUserId
    assignmentReason := match reason with | some s => some s | none => r.assignmentReason
    completedAt := some now }

/-- The draft `escalate` passes to `create`: identical to `transferDraft`
except `priority = HIGH` and `assignmentType = 'escalation'`. -/
def escalationDraft (assignment : ConversationAssignment) (toUserId : String)
    (reason : Option String) : AssignmentDraft :=
  { conversationId := assignment.conversationId
    whatsappInstanceId := assignment.whatsappInstanceId
    userId := toUserId
    priority := AssignmentPriority.high
    assignmentType := AssignmentType.escalation
    transferredFrom := some assignment.userId
    assignmentReason := reason
    contactName := assignment.contactName
    contactPhone := assignment.contactPhone
    contactType := assignment.contactType
    category := assignment.category
    subcategory := assignment.subcategory
    tags := assignment.tags }

/-- `escalate(id, toUserId, reason?)`: closes the current row as ESCALATED
(with `transferredTo` and `completedAt = now`, like `transfer`), then creates
a new row with `priority = HIGH` and `assignmentType = 'escalation'`. -/
def escalate (st : LedgerState) (id : Nat) (toUserId : String)
    (reason : Option String) (now : Rat) :
    Option ConversationAssignment × LedgerState :=
  match findById st id with
  | none => (none, st)
  | some assignment =>
    let st1 := updateRow st id (closeForEscalation toUserId reason now)
    let res := create st1 (escalationDraft assignment toUserId reason) now
    (some res.1, res.2)

end AssignmentRepo

/-- `UserRole` enum. -/
inductive UserRole
  | admin
  | supervisor
  | agent
  | viewer
deriving DecidableEq, Repr

/-- `UserStatus` enum. -/
inductive UserStatus
  | active
  | inactive
  | suspended
deriving DecidableEq, Repr

/-- `UserAvailability` enum. -/
inductive UserAvailability
  | available
  | busy
  | away
  | offline
deriving DecidableEq, Repr

/-- The `permissions` JSON column of the `User` entity, restricted to the
field the routing queries inspect. -/
structure UserPermissions where
  whatsappInstances : Option (List String) := none
deriving DecidableEq, Repr

/-- The `User` entity (an agent), restricted to the fields the assignment
and routing code reads.  `maxConcurrentChats` and `currentChatCount` are SQL
`int` columns, so they are modelled as integers (nothing in the schema
prevents negative values). -/
structure User where
  id : String
  role : UserRole
  status : UserStatus
  availability : UserAvailability
  maxConcurrentChats : Int
  currentChatCount : Int
  lastActivityAt : Option Rat
  permissions : Option UserPermissions
deriving DecidableEq, Repr

namespace User

/-- Entity helper `isAvailable()`. -/
def isAvailable (u : User) : Bool :=
  decide (u.status = UserStatus.active) &&
  decide (u.availability = UserAvailability.available) &&
  decide (u.currentChatCount < u.maxConcurrentChats)

/-- Entity helper `canHandleMoreChats()`. -/
def canHandleMoreChats (u : User) : Bool :=
  decide (u.currentChatCount < u.maxConcurrentChats)

/-- Entity helper `canAccessInstance(instanceId)`: admins always, otherwise
membership of the permissions instance list (null-safe, defaulting false). -/
def canAccessInstance (u : User) (instanceId : String) : Bool :=
  if u.role = UserRole.admin then true
  else
    match u.permissions with
    | none => false
    | some p =>
      match p.whatsappInstances with
      | none => false
      | some l => l.contains instanceId

end User

/-- `TeamStatus` enum. -/
inductive TeamStatus
  | active
  | inactive
deriving DecidableEq, Repr

/-- The `Team` entity, restricted to the fields the routing code reads.
The `members` many-to-many relation may be unloaded (`undefined` in JS),
hence the `Option`. -/
structure Team where
  id : String
  status : TeamStatus
  members : Option (List User)
deriving DecidableEq, Repr

namespace Team

/-- Entity helper `getAvailableMembers()`:
`this.members?.filter(member => member.isAvailable()) || []`. -/
def getAvailableMembers (t : Team) : List User :=
  match t.members with
  | none => []
  | some ms => ms.filter User.isAvailable

/-- Entity helper `getActiveMemberCount()`: members with status `'active'`
and availability other than `'offline'`. -/
def getActiveMemberCount (t : Team) : Nat :=
  match t.members with
  | none => 0
  | some ms =>
    (ms.filter (fun m =>
      decide (m.status = UserStatus.active) &&
      decide (m.availability ≠ UserAvailability.offline))).length

/-- Entity helper `calculateTeamCapacity()`: sum of
`maxConcurrentChats - currentChatCount` over ALL members (no status or
availability filter). -/
def calculateTeamCapacity (t : Team) : Int :=
  match t.members with
  | none => 0
  | some ms =>
    ms.foldl (fun total member =>
      total + (member.maxConcurrentChats - member.currentChatCount)) 0

/-- Entity helper `getNextAgentByMethod(method)`.  The `random` branch draws
`Math.floor(Math.random() * availableMembers.length)`; the random source is
modelled by the injected index `rnd`, reduced modulo the list length.  The
`round_robin` case and the `default` case share the same body: the first
available member. -/
def getNextAgentByMethod (t : Team) (method : String) (rnd : Nat) : Option User :=
  let availableMembers := t.getAvailableMembers
  if availableMembers.isEmpty then none
  else if method == "least_busy" then
    match availableMembers with
    | [] => none
    | h :: rest =>
      some (rest.foldl (fun least current =>
        if current.currentChatCount < least.currentChatCount then current else least) h)
  else if method == "random" then
    availableMembers.get? (rnd % availableMembers.length)
  else
    availableMembers.head?

end Team

namespace UserRepo

/-- The WHERE clause of `UserRepository.findLeastBusyAgent`: status ACTIVE,
availability AVAILABLE, `currentChatCount < maxConcurrentChats`, and — only
when an `instanceId` is supplied — `JSON_CONTAINS(user.permissions,
'{"whatsappInstances":["<instanceId>"]}')`, i.e. the permissions JSON lists
the instance.  There is no admin-role bypass in this query. -/
def leastBusyFilter (instanceId : Option String) (u : User) : Bool :=
  decide (u.status = UserStatus.active) &&
  decide (u.availability = UserAvailability.available) &&
  decide (u.currentChatCount < u.maxConcurrentChats) &&
  (match instanceId with
   | none => true
   | some i =>
     match u.permissions with
     | none => false
     | some p =>
       match p.whatsappInstances with
       | none => false
       | some l => l.contains i)

/-- The `lastActivityAt DESC` component of the ORDER BY clause: `a` sorts
strictly before `b` when `a`'s last activity is more recent, with SQL NULLs
last under DESC. -/
def laBefore (a b : Option Rat) : Bool :=
  match a, b with
  | some x, some y => decide (y < x)
  | some _, none => true
  | none, _ => false

/-- Strict "sorts before" relation of the ORDER BY clause
`currentChatCount ASC, lastActivityAt DESC`: fewer chats first; among equal
chat counts, the larger (more recent) `lastActivityAt` first. -/
def sortsBefore (a b : User) : Bool :=
  decide (a.currentChatCount < b.currentChatCount) ||
  (decide (a.currentChatCount = b.currentChatCount) &&
    laBefore a.lastActivityAt b.lastActivityAt)

/-- `findLeastBusyAgent(instanceId?)`: `getOne()` of the filtered, ordered
query — the first row under the ORDER BY among the qualifying users (ties
beyond the ORDER BY key resolved by table order). -/
def findLeastBusyAgent (users : List User) (instanceId : Option String) :
    Option User :=
  match users.filter (leastBusyFilter instanceId) with
  | [] => none
  | h :: rest =>
    some (rest.foldl (fun best current =>
      if sortsBefore current best then current else best) h)

/-- `UserRepository.updateChatCount(id, increment)`: a single SQL UPDATE
setting `currentChatCount = currentChatCount + increment` and
`lastActivityAt = now`.  There is no clamping of any kind. -/
def updateChatCount (u : User) (increment : Int) (now : Rat) : User :=
  { u with
    currentChatCount := u.currentChatCount + increment
    lastActivityAt := some now }

end UserRepo

/-- The result record of `TeamRepository.getTeamCapacity`. -/
structure TeamCapacity where
  totalCapacity : Int
  usedCapacity : Int
  availableCapacity : Int
  memberCount : Nat
  activeMemberCount : Nat
deriving DecidableEq, Repr

namespace TeamRepo

/-- `TeamRepository.getTeamCapacity(teamId)` applied to the loaded team:
zeros when the team has no loaded members; otherwise `totalCapacity` sums
`maxConcurrentChats` over ALL members, `usedCapacity` sums
`currentChatCount` over ALL members, `availableCapacity = total - used`
(no floor), and only `activeMemberCount` filters members by status
`'active'` and availability `!== 'offline'`. -/
def getTeamCapacity (t : Team) : TeamCapacity :=
  match t.members with
  | none =>
    { totalCapacity := 0, usedCapacity := 0, availableCapacity := 0
      memberCount := 0, activeMemberCount := 0 }
  | some members =>
    let totalCapacity := members.foldl (fun sum member => sum + member.maxConcurrentChats) 0
    let usedCapacity := members.foldl (fun sum member => sum + member.currentChatCount) 0
    let activeMemberCount := (members.filter (fun member =>
      decide (member.status = UserStatus.active) &&
      decide (member.availability ≠ UserAvailability.offline))).length
    { totalCapacity := totalCapacity
      usedCapacity := usedCapacity
      availableCapacity := totalCapacity - usedCapacity
      memberCount := members.length
      activeMemberCount := activeMemberCount }

end TeamRepo

/-! ## Claimed-behaviour definitions (from the specification's words)

For the claims that turn out to disagree with the code, the claimed
behaviour is written out as its own definition, named `...Claimed`, so that
a counterexample can compare it with the definition translated from the
source. -/

/-- Claimed behaviour of `findLeastBusyAgent` (from the spec's words):
filter status=active, availability=available, spare capacity, and
(no instanceId OR instanceId among the agent's allowed instances OR
role=admin); order by `currentChatCount` ascending, ties broken in favour
of the agent idle longest (smallest `lastActivityAt`, a never-active agent
counting as idle longest). -/
def claimedLeastBusyFilter (instanceId : Option String) (u : User) : Bool :=
  decide (u.status = UserStatus.active) &&
  decide (u.availability = UserAvailability.available) &&
  decide (u.currentChatCount < u.maxConcurrentChats) &&
  (match instanceId with
   | none => true
   | some i => u.canAccessInstance i)

/-- Claimed sort order: fewer chats first; among equal counts, the agent
idle longest (smaller `lastActivityAt`) first. -/
def claimedSortsBefore (a b : User) : Bool :=
  decide (a.currentChatCount < b.currentChatCount) ||
  (decide (a.currentChatCount = b.currentChatCount) &&
    match a.lastActivityAt, b.lastActivityAt with
    | some x, some y => decide (x < y)
    | none, some _ => true
    | _, none => false)

/-- Claimed `findLeastBusyAgent`. -/
def findLeastBusyClaimed (users : List User) (instanceId : Option String) :
    Option User :=
  match users.filter (claimedLeastBusyFilter instanceId) with
  | [] => none
  | h :: rest =>
    some (rest.foldl (fun best current =>
      if claimedSortsBefore current best then current else best) h)

/-- Claimed behaviour of `getTeamCapacity` (from the claim's words): total
and used are summed over the team's active, non-offline members only, and
available is total minus used floored at 0. -/
def getTeamCapacityClaimed (t : Team) : TeamCapacity :=
  match t.members with
  | none =>
    { totalCapacity := 0, usedCapacity := 0, availableCapacity := 0
      memberCount := 0, activeMemberCount := 0 }
  | some members =>
    let activeMembers := members.filter (fun member =>
      decide (member.status = UserStatus.active) &&
      decide (member.availability ≠ UserAvailability.offline))
    let totalCapacity := activeMembers.foldl (fun sum member => sum + member.maxConcurrentChats) 0
    let usedCapacity := activeMembers.foldl (fun sum member => sum + member.currentChatCount) 0
    { totalCapacity := totalCapacity
      usedCapacity := usedCapacity
      availableCapacity := max 0 (totalCapacity - usedCapacity)
      memberCount := members.length
      activeMemberCount := activeMembers.length }

/-! ## Concrete fixtures -/

/-- An Active assignment row for conversation `c1`, assigned at time 0. -/
def baseRow : ConversationAssignment :=
  { id := 0
    conversationId := "c1"
    whatsappInstanceId := "w1"
    userId := "u1"
    status := AssignmentStatus.active
    priority := AssignmentPriority.normal
    assignmentType := AssignmentType.auto
    assignedBy := none
    transferredFrom := none
    transferredTo := none
    assignmentReason := none
    assignedAt := 0
    firstResponseAt := none
    lastResponseAt := none
    completedAt := none
    responseCount := 0
    responseTimeMinutes := none
    resolutionTimeMinutes := none
    customerRating := none
    customerFeedback := none
    supervisorRating := none
    supervisorFeedback := none
    contactName := none
    contactPhone := none
    contactType := none
    tags := none
    category := none
    subcategory := none }

/-- A ledger holding exactly one Active row for conversation `c1`. -/
def stActive : LedgerState := { rows := [baseRow], nextId := 1 }

/-- A create request for the same conversation `c1`, for a second agent. -/
def draft2 : AssignmentDraft :=
  { conversationId := "c1", whatsappInstanceId := "w1", userId := "u2" }

/-- A terminal (Completed) row for conversation `c1`. -/
def rowCompleted : ConversationAssignment :=
  { baseRow with status := AssignmentStatus.completed, completedAt := some 60000 }

/-- A ledger holding exactly one Completed row. -/
def stDone : LedgerState := { rows := [rowCompleted], nextId := 1 }

/-- Available agent A with no current chats. -/
def agentA : User :=
  { id := "A", role := UserRole.agent, status := UserStatus.active
    availability := UserAvailability.available
    maxConcurrentChats := 5, currentChatCount := 0
    lastActivityAt := none, permissions := none }

/-- Available agent B with no current chats. -/
def agentB : User :=
  { agentA with id := "B" }

/-- A team with two available agents. -/
def team2 : Team :=
  { id := "T", status := TeamStatus.active, members := some [agentA, agentB] }

/-- An available agent last active at time 50 (idle longest). -/
def uEarly : User :=
  { agentA with id := "E", lastActivityAt := some 50 }

/-- An available agent last active at time 100 (most recently active). -/
def uLate : User :=
  { agentA with id := "L", lastActivityAt := some 100 }

/-- An available admin whose permissions JSON lists no instances. -/
def adminU : User :=
  { agentA with id := "Adm", role := UserRole.admin }

/-- An inactive, offline team member with spare capacity on paper. -/
def memberInactive : User :=
  { agentA with
    id := "I"
    status := UserStatus.inactive
    availability := UserAvailability.offline
    currentChatCount := 2 }

/-- A team whose only member is inactive and offline. -/
def teamC9 : Team :=
  { id := "T9", status := TeamStatus.active, members := some [memberInactive] }

/-! ## Theorems for the claims -/

/-- C1.  The claim says the Ledger's `create`, called while an Active
assignment already exists for the same conversationId, rejects the request
with `DuplicateActiveAssignment` and creates no second Active row.  The
code has no such guard: with an Active row for conversation `c1` already
stored (witnessed by `findActiveByConversationId`), `create` for the same
conversation succeeds and leaves TWO Active rows for `c1`. -/
theorem C1_create_accepts_duplicate_active :
    AssignmentRepo.findActiveByConversationId stActive "c1" = some baseRow ∧
    ((AssignmentRepo.create stActive draft2 50).2.rows.filter (fun r =>
        r.conversationId == "c1" && decide (r.status = AssignmentStatus.active))).length = 2 := by
  decide

/-- C2.  The claim says `complete`/`transfer`/`escalate`/`abandon` on a
non-Active row always fail with `InvalidTransition` and produce no side
effect.  The code checks no status at all: `transfer` on a Completed row
succeeds, rewrites the terminal row to Transferred, and creates a successor
Active row; `updateStatus` freely moves a Completed row to Abandoned. -/
theorem C2_transfer_of_completed_row_succeeds :
    ((AssignmentRepo.transfer stDone 0 "u2" none 100).2.rows.map (fun r => r.status))
      = [AssignmentStatus.transferred, AssignmentStatus.active] ∧
    ((AssignmentRepo.transfer stDone 0 "u2" none 100).1).isSome = true ∧
    ((AssignmentRepo.updateStatus stDone 0 AssignmentStatus.abandoned 100).1).map
        (fun r => r.status) = some AssignmentStatus.abandoned := by
  decide

/-- C4.  The claim says that on a first response with no explicit sample,
`recordResponse` derives `responseTimeMinutes` as the elapsed minutes
between `assignedAt` and now.  The code computes
`assignment.calculateResponseTime()` on the row as read — whose
`firstResponseAt` is still null — so it stores 0: for a row assigned at
time 0 and a response at 600000 ms (10 minutes), the stored value is 0
while the elapsed time (the entity helper applied to the updated row)
is 10 minutes. -/
theorem C4_recordResponse_first_response_time_is_zero :
    ((AssignmentRepo.recordResponse stActive 0 none 600000).1).map
        (fun r => (r.responseCount, r.firstResponseAt, r.responseTimeMinutes))
      = some (1, some 600000, some 0) ∧
    ConversationAssignment.calculateResponseTime
        (((AssignmentRepo.recordResponse stActive 0 none 600000).1).getD baseRow) = 10 := by
  constructor
  · rfl
  · show ((600000 : Rat) - 0) / (1000 * 60) = 10
    norm_num

/-- C5.  The claim says `complete` sets `resolutionTimeMinutes` to the
elapsed minutes between `assignedAt` and `completedAt` (positive, not
zero, for an assignment completed after creation).  The code computes
`assignment.calculateResolutionTime()` on the row as read — whose
`completedAt` is still null — so it stores 0: completing at 1800000 ms
(30 minutes after assignment) stores 0 while the entity helper applied to
the updated row gives 30. -/
theorem C5_complete_resolution_time_is_zero :
    ((AssignmentRepo.complete stActive 0 none none none none 1800000).1).map
        (fun r => (r.status, r.completedAt, r.resolutionTimeMinutes))
      = some (AssignmentStatus.completed, some 1800000, some 0) ∧
    ConversationAssignment.calculateResolutionTime
        (((AssignmentRepo.complete stActive 0 none none none none 1800000).1).getD baseRow)
      = 30 := by
  constructor
  · rfl
  · show ((1800000 : Rat) - 0) / (1000 * 60) = 30
    norm_num

/-- C6.  The claim says round-robin selection uses a persisted per-team
last-selected pointer so that N sequential calls hit each of N available
agents once.  The code keeps no pointer of any kind: `getNextAgentByMethod`
with `'round_robin'` always returns the first available member, so on a
team with two available agents every sequential call selects agent A and
agent B never receives work. -/
theorem C6_round_robin_always_picks_first_agent :
    Team.getNextAgentByMethod team2 "round_robin" 0 = some agentA ∧
    Team.getNextAgentByMethod team2 "round_robin" 1 = some agentA ∧
    agentA ≠ agentB := by
  decide

/-- C7 counterexample.  The claim says `updateChatCount` never drives
`currentChatCount` negative, clamping a decrement at 0.  The code issues a
plain `currentChatCount + increment` SQL update: a decrement applied at
count 0 yields −1. -/
theorem C7_counterexample_updateChatCount_negative :
    (UserRepo.updateChatCount agentA (-1) 5).currentChatCount = -1 ∧
    ¬ 0 ≤ (UserRepo.updateChatCount agentA (-1) 5).currentChatCount := by
  decide

/-- C7 amended.  `updateChatCount` changes `currentChatCount` by exactly
the given delta, with no clamping: after any sequence of adjustments the
count equals the initial count plus the sum of the deltas (which may be
negative). -/
theorem C7_updateChatCount_adds_delta_exactly (u : User) (ds : List Int) (now : Rat) :
    (ds.foldl (fun s d => UserRepo.updateChatCount s d now) u).currentChatCount
      = u.currentChatCount + ds.sum := by
  induction ds generalizing u with
  | nil => simp
  | cons d t ih =>
    rw [List.foldl_cons, ih, List.sum_cons]
    simp only [UserRepo.updateChatCount]
    ring

/-- C8 counterexample.  The claim says ties among equally-busy agents are
broken in favour of the agent idle longest, and that with an `instanceId`
an admin qualifies regardless of instance permissions.  The code orders by
`lastActivityAt DESC` (most recently active first) and its instance filter
is `JSON_CONTAINS` on the permissions only (no admin bypass): with two
equally-busy agents, the one last active at 100 beats the one last active
at 50, and an admin with no instance permissions is not found at all. -/
theorem C8_counterexample_tie_break_and_admin :
    UserRepo.findLeastBusyAgent [uEarly, uLate] none = some uLate ∧
    findLeastBusyClaimed [uEarly, uLate] none = some uEarly ∧
    UserRepo.findLeastBusyAgent [adminU] (some "i1") = none ∧
    findLeastBusyClaimed [adminU] (some "i1") = some adminU := by
  decide

/-- C9 counterexample.  The claim says the capacity summary sums only over
active members, floors `available` at 0, and lets offline or inactive
members contribute nothing.  The code sums over ALL members with no floor:
a team whose only member is inactive and offline still reports
`totalCapacity = 5`, where the claimed behaviour reports 0. -/
theorem C9_counterexample_capacity_counts_inactive_members :
    TeamRepo.getTeamCapacity teamC9 ≠ getTeamCapacityClaimed teamC9 ∧
    (TeamRepo.getTeamCapacity teamC9).totalCapacity = 5 ∧
    (getTeamCapacityClaimed teamC9).totalCapacity = 0 := by
  decide

/-- Distributing a sum of differences over two parallel folds (used to
relate the repository's capacity aggregate to the entity's). -/
theorem teamCapacity_foldl_split :
    ∀ (ms : List User) (x y : Int),
      ms.foldl (fun sum member => sum + member.maxConcurrentChats) x
          - ms.foldl (fun sum member => sum + member.currentChatCount) y
        = ms.foldl (fun total member =>
            total + (member.maxConcurrentChats - member.currentChatCount)) (x - y)
  | [], _, _ => rfl
  | m :: t, x, y => by
      rw [List.foldl_cons, List.foldl_cons, List.foldl_cons,
        teamCapacity_foldl_split t (x + m.maxConcurrentChats) (y + m.currentChatCount)]
      congr 1
      ring

/-- C9 amended.  The repository's capacity summary sums `maxConcurrentChats`
and `currentChatCount` over ALL loaded members (regardless of status or
availability) and reports `availableCapacity = totalCapacity - usedCapacity`
with no floor, which coincides with the Team entity's
`calculateTeamCapacity()` (also unfiltered and unfloored); only
`activeMemberCount` is restricted to active, non-offline members. -/
theorem C9_capacity_sums_all_members_unfloored (t : Team) :
    (TeamRepo.getTeamCapacity t).availableCapacity = t.calculateTeamCapacity ∧
    (TeamRepo.getTeamCapacity t).availableCapacity
      = (TeamRepo.getTeamCapacity t).totalCapacity
          - (TeamRepo.getTeamCapacity t).usedCapacity := by
  cases h : t.members with
  | none => simp [TeamRepo.getTeamCapacity, Team.calculateTeamCapacity, h]
  | some ms =>
    constructor
    · simp only [TeamRepo.getTeamCapacity, Team.calculateTeamCapacity, h]
      simpa using teamCapacity_foldl_split ms 0 0
    · simp [TeamRepo.getTeamCapacity, h]

/-- C10.  For every method string other than `'least_busy'` and `'random'`
— including `'manual'` and unrecognized values — `getNextAgentByMethod`
returns the first element of the available-member list, or none when no
member is available (the `'round_robin'` case and the switch's `default`
share this body). -/
theorem C10_other_methods_pick_first_available (t : Team) (method : String)
    (rnd : Nat) (h1 : method ≠ "least_busy") (h2 : method ≠ "random") :
    Team.getNextAgentByMethod t method rnd = t.getAvailableMembers.head? := by
  have hb1 : (method == "least_busy") = false := beq_eq_false_iff_ne.mpr h1
  have hb2 : (method == "random") = false := beq_eq_false_iff_ne.mpr h2
  unfold Team.getNextAgentByMethod
  cases hm : t.getAvailableMembers with
  | nil => simp [hm]
  | cons a l => simp [hm, hb1, hb2]

/-- C10 witness: with the `'manual'` method on a team of two available
agents, the first member is auto-selected. -/
theorem C10_witness_manual_method :
    Team.getNextAgentByMethod team2 "manual" 0 = (Team.getAvailableMembers team2).head? :=
  C10_other_methods_pick_first_available team2 "manual" 0 (by decide) (by decide)

/-- `laBefore` is irreflexive. -/
theorem laBefore_irrefl (o : Option Rat) : UserRepo.laBefore o o = false := by
  cases o <;> simp [UserRepo.laBefore]

/-- `laBefore` is transitive. -/
theorem laBefore_trans (a b c : Option Rat) (h1 : UserRepo.laBefore a b = true)
    (h2 : UserRepo.laBefore b c = true) : UserRepo.laBefore a c = true := by
  cases a with
  | none => simp [UserRepo.laBefore] at h1
  | some x =>
    cases c with
    | none => simp [UserRepo.laBefore]
    | some z =>
      cases b with
      | none => simp [UserRepo.laBefore] at h2
      | some y =>
        simp only [UserRepo.laBefore, decide_eq_true_eq] at h1 h2 ⊢
        exact h2.trans h1

/-- If `a` does not sort before `b` but sorts before `c`, then `b` sorts
before `c` (the complement of `laBefore` is a total preorder). -/
theorem laBefore_false_trans (a b c : Option Rat) (h1 : UserRepo.laBefore a b = false)
    (h2 : UserRepo.laBefore a c = true) : UserRepo.laBefore b c = true := by
  cases a with
  | none => simp [UserRepo.laBefore] at h2
  | some x =>
    cases b with
    | none => simp [UserRepo.laBefore] at h1
    | some y =>
      cases c with
      | none => simp [UserRepo.laBefore]
      | some z =>
        simp only [UserRepo.laBefore, decide_eq_true_eq, decide_eq_false_iff_not] at h1 h2 ⊢
        exact h2.trans_le (le_of_not_lt h1)

/-- `sortsBefore` is irreflexive. -/
theorem sortsBefore_irrefl (x : User) : UserRepo.sortsBefore x x = false := by
  simp [UserRepo.sortsBefore, laBefore_irrefl]

/-- `sortsBefore` is transitive. -/
theorem sortsBefore_trans (x y z : User) (h1 : UserRepo.sortsBefore x y = true)
    (h2 : UserRepo.sortsBefore y z = true) : UserRepo.sortsBefore x z = true := by
  simp only [UserRepo.sortsBefore, Bool.or_eq_true, Bool.and_eq_true,
    decide_eq_true_eq] at h1 h2 ⊢
  rcases h1 with h1 | ⟨h1e, h1l⟩ <;> rcases h2 with h2 | ⟨h2e, h2l⟩
  · exact Or.inl (h1.trans h2)
  · exact Or.inl (h2e ▸ h1)
  · exact Or.inl (h1e ▸ h2)
  · exact Or.inr ⟨h1e.trans h2e, laBefore_trans _ _ _ h1l h2l⟩

/-- If `x` does not sort before `y` but sorts before `z`, then `y` sorts
before `z`. -/
theorem sortsBefore_false_trans (x y z : User) (h1 : UserRepo.sortsBefore x y = false)
    (h2 : UserRepo.sortsBefore x z = true) : UserRepo.sortsBefore y z = true := by
  simp only [UserRepo.sortsBefore, Bool.or_eq_false_iff, Bool.and_eq_false_iff,
    decide_eq_false_iff_not, Bool.or_eq_true, Bool.and_eq_true,
    decide_eq_true_eq] at h1 h2 ⊢
  obtain ⟨hlt, htie⟩ := h1
  have hyx : y.currentChatCount ≤ x.currentChatCount := le_of_not_lt hlt
  rcases h2 with h2 | ⟨h2e, h2l⟩
  · exact Or.inl (lt_of_le_of_lt hyx h2)
  · rcases lt_or_eq_of_le hyx with hylt | hyeq
    · exact Or.inl (h2e ▸ hylt)
    · rcases htie with hne | hlaf
      · exact absurd hyeq.symm hne
      · exact Or.inr ⟨hyeq.trans h2e, laBefore_false_trans _ _ _ hlaf h2l⟩

/-- The fold `getOne()` performs over the ordered result set stays within
the candidate list. -/
theorem foldl_pick_mem (before : User → User → Bool) :
    ∀ (t : List User) (b : User),
      t.foldl (fun best current => if before current best then current else best) b = b
        ∨ t.foldl (fun best current => if before current best then current else best) b ∈ t
  | [], _ => Or.inl rfl
  | c :: t, b => by
      rw [List.foldl_cons]
      rcases foldl_pick_mem before t (if before c b then c else b) with h | h
      · by_cases hb : before c b
        · right
          rw [h, if_pos hb]
          exact List.mem_cons_self _ _
        · left
          rw [h, if_neg hb]
      · right
        exact List.mem_cons_of_mem _ h

/-- No candidate sorts strictly before the element the `getOne()` fold
returns, provided the order is irreflexive and transitively coherent. -/
theorem foldl_pick_not_beaten (before : User → User → Bool)
    (htrans : ∀ x y z, before x y = true → before y z = true → before x z = true)
    (hfalse : ∀ x y z, before x y = false → before x z = true → before y z = true)
    (hirr : ∀ x, before x x = false)
    (t : List User) : ∀ (b v : User), (v = b ∨ v ∈ t) →
      before v (t.foldl (fun best current => if before current best then current else best) b)
        = false := by
  induction t with
  | nil =>
    intro b v hv
    rcases hv with rfl | hv
    · exact hirr v
    · exact absurd hv (List.not_mem_nil v)
  | cons c t ih =>
    intro b v hv
    rw [List.foldl_cons]
    by_cases hb : before c b
    · rw [if_pos hb]
      rcases hv with rfl | hv
      · cases hvx : before v
          (t.foldl (fun best current => if before current best then current else best) c) with
        | false => rfl
        | true =>
          have hc := ih c c (Or.inl rfl)
          have h2 := htrans c v _ hb hvx
          rw [hc] at h2
          exact Bool.noConfusion h2
      · rcases List.mem_cons.mp hv with rfl | hv
        · exact ih v v (Or.inl rfl)
        · exact ih c v (Or.inr hv)
    · rw [if_neg hb]
      have hbf : before c b = false := Bool.eq_false_iff.mpr hb
      rcases hv with rfl | hv
      · exact ih v v (Or.inl rfl)
      · rcases List.mem_cons.mp hv with rfl | hv
        · cases hvx : before v
            (t.foldl (fun best current => if before current best then current else best) b) with
          | false => rfl
          | true =>
            have hbb := ih b b (Or.inl rfl)
            have h2 := hfalse v b _ hbf hvx
            rw [hbb] at h2
            exact Bool.noConfusion h2
        · exact ih b v (Or.inr hv)

/-- C8 amended.  `findLeastBusyAgent` returns none exactly when no user
passes its filter (status active, availability available, spare capacity,
and — when an instanceId is given — the permissions JSON listing the
instance, with NO admin bypass); when it returns an agent, that agent
passes the filter and no other passing agent sorts strictly before it
under `currentChatCount ASC, lastActivityAt DESC` (most recently active
preferred among equally-busy agents). -/
theorem C8_findLeastBusyAgent_characterization (users : List User)
    (instanceId : Option String) :
    (UserRepo.findLeastBusyAgent users instanceId = none ↔
      ∀ u ∈ users, UserRepo.leastBusyFilter instanceId u = false) ∧
    (∀ u, UserRepo.findLeastBusyAgent users instanceId = some u →
      u ∈ users ∧ UserRepo.leastBusyFilter instanceId u = true ∧
      ∀ v ∈ users, UserRepo.leastBusyFilter instanceId v = true →
        UserRepo.sortsBefore v u = false) := by
  constructor
  · unfold UserRepo.findLeastBusyAgent
    cases hfl : users.filter (UserRepo.leastBusyFilter instanceId) with
    | nil =>
      simp only [true_iff]
      intro u hu
      have := List.filter_eq_nil_iff.mp hfl u hu
      exact Bool.eq_false_iff.mpr this
    | cons h rest =>
      constructor
      · intro hcon
        exact Option.noConfusion hcon
      · intro hall
        have hmem : h ∈ users.filter (UserRepo.leastBusyFilter instanceId) := by
          rw [hfl]; exact List.mem_cons_self h rest
        have hpair := List.mem_filter.mp hmem
        rw [hall h hpair.1] at hpair
        exact Bool.noConfusion hpair.2
  · intro u hu
    unfold UserRepo.findLeastBusyAgent at hu
    cases hfl : users.filter (UserRepo.leastBusyFilter instanceId) with
    | nil =>
      rw [hfl] at hu
      exact Option.noConfusion hu
    | cons h rest =>
      rw [hfl] at hu
      injection hu with hu
      have hmemfl : u ∈ users.filter (UserRepo.leastBusyFilter instanceId) := by
        rw [hfl]
        rcases foldl_pick_mem UserRepo.sortsBefore rest h with he | hm
        · rw [← hu, he]; exact List.mem_cons_self h rest
        · rw [← hu]; exact List.mem_cons_of_mem h hm
      have hpair := List.mem_filter.mp hmemfl
      refine ⟨hpair.1, hpair.2, ?_⟩
      intro v hv hvp
      have hvfl : v ∈ users.filter (UserRepo.leastBusyFilter instanceId) :=
        List.mem_filter.mpr ⟨hv, hvp⟩
      rw [hfl] at hvfl
      rw [← hu]
      exact foldl_pick_not_beaten UserRepo.sortsBefore sortsBefore_trans
        sortsBefore_false_trans sortsBefore_irrefl rest h v
        (List.mem_cons.mp hvfl)

/-- C8 witness: applying the characterization to the two-agent tie fixture
shows no qualifying agent sorts before the returned agent; in particular
the longer-idle agent does not beat the more recently active one. -/
theorem C8_characterization_witness : UserRepo.sortsBefore uEarly uLate = false :=
  ((C8_findLeastBusyAgent_characterization [uEarly, uLate] none).2 uLate
    (by decide)).2.2 uEarly (by decide) (by decide)

/-- Looking up a row by id after an id-preserving by-id update returns the
updated row. -/
theorem find?_update_by_id (id : Nat)
    (f : ConversationAssignment → ConversationAssignment)
    (hf : ∀ r, (f r).id = r.id) :
    ∀ rows : List ConversationAssignment,
      (rows.map (fun r => if r.id == id then f r else r)).find? (fun r => r.id == id)
        = (rows.find? (fun r => r.id == id)).map f
  | [] => rfl
  | a :: t => by
      simp only [List.map_cons]
      by_cases ha : a.id = id
      · have hb : (a.id == id) = true := beq_iff_eq.mpr ha
        have hfb : ((f a).id == id) = true := by rw [hf a]; exact hb
        rw [if_pos hb, List.find?_cons_of_pos (p := fun r : ConversationAssignment => r.id == id) _ hfb,
          List.find?_cons_of_pos (p := fun r : ConversationAssignment => r.id == id) _ hb]
        rfl
      · have hb : (a.id == id) = false := beq_eq_false_iff_ne.mpr ha
        rw [if_neg (by simp [hb]),
          List.find?_cons_of_neg (p := fun r : ConversationAssignment => r.id == id) _ (by simp [hb]),
          List.find?_cons_of_neg (p := fun r : ConversationAssignment => r.id == id) _ (by simp [hb])]
        exact find?_update_by_id id f hf t

/-- After `transfer`, the predecessor row reads back exactly as the source
row with the transfer-closing update applied. -/
theorem findById_after_transfer (st : LedgerState) (id : Nat) (toUserId : String)
    (reason : Option String) (now : Rat) (a : ConversationAssignment)
    (h : AssignmentRepo.findById st id = some a) :
    AssignmentRepo.findById (AssignmentRepo.transfer st id toUserId reason now).2 id
      = some (AssignmentRepo.closeForTransfer toUserId reason now a) := by
  have hfind : st.rows.find? (fun r => r.id == id) = some a := h
  simp only [AssignmentRepo.transfer, h]
  simp only [AssignmentRepo.create, AssignmentRepo.findById, AssignmentRepo.updateRow]
  rw [List.find?_append,
    find?_update_by_id id (AssignmentRepo.closeForTransfer toUserId reason now)
      (fun _ => rfl) st.rows, hfind]
  rfl

/-- After `escalate`, the predecessor row reads back exactly as the source
row with the escalation-closing update applied. -/
theorem findById_after_escalate (st : LedgerState) (id : Nat) (toUserId : String)
    (reason : Option String) (now : Rat) (a : ConversationAssignment)
    (h : AssignmentRepo.findById st id = some a) :
    AssignmentRepo.findById (AssignmentRepo.escalate st id toUserId reason now).2 id
      = some (AssignmentRepo.closeForEscalation toUserId reason now a) := by
  have hfind : st.rows.find? (fun r => r.id == id) = some a := h
  simp only [AssignmentRepo.escalate, h]
  simp only [AssignmentRepo.create, AssignmentRepo.findById, AssignmentRepo.updateRow]
  rw [List.find?_append,
    find?_update_by_id id (AssignmentRepo.closeForEscalation toUserId reason now)
      (fun _ => rfl) st.rows, hfind]
  rfl

/-- C3.  On any row that exists (in particular any Active one), `escalate`
behaves exactly like `transfer` up to three differences: the successor row
it returns is the `transfer` successor with `priority` forced to High and
`assignmentType` set to Escalation, and the predecessor row is the
`transfer` predecessor with closing status Escalated instead of
Transferred; in particular the predecessor gets `completedAt = now` under
both operations. -/
theorem C3_escalate_is_transfer_with_high_priority (st : LedgerState) (id : Nat)
    (toUserId : String) (reason : Option String) (now : Rat)
    (a : ConversationAssignment) (h : AssignmentRepo.findById st id = some a) :
    (AssignmentRepo.escalate st id toUserId reason now).1
      = ((AssignmentRepo.transfer st id toUserId reason now).1).map
          (fun s => { s with priority := AssignmentPriority.high,
                             assignmentType := AssignmentType.escalation }) ∧
    AssignmentRepo.findById (AssignmentRepo.escalate st id toUserId reason now).2 id
      = (AssignmentRepo.findById (AssignmentRepo.transfer st id toUserId reason now).2 id).map
          (fun p => { p with status := AssignmentStatus.escalated }) ∧
    (AssignmentRepo.findById (AssignmentRepo.transfer st id toUserId reason now).2 id).map
        (fun p => p.completedAt) = some (some now) ∧
    (AssignmentRepo.findById (AssignmentRepo.escalate st id toUserId reason now).2 id).map
        (fun p => p.completedAt) = some (some now) := by
  have hT := findById_after_transfer st id toUserId reason now a h
  have hE := findById_after_escalate st id toUserId reason now a h
  refine ⟨?_, ?_, ?_, ?_⟩
  · simp only [AssignmentRepo.transfer, AssignmentRepo.escalate, h]
    rfl
  · rw [hT, hE]
    rfl
  · rw [hT]
    rfl
  · rw [hE]
    rfl

/-- C3 witness: the relation instantiated on a concrete one-row ledger
holding an Active assignment. -/
theorem C3_escalate_transfer_witness :
    (AssignmentRepo.escalate stActive 0 "u2" none 60000).1
      = ((AssignmentRepo.transfer stActive 0 "u2" none 60000).1).map
          (fun s => { s with priority := AssignmentPriority.high,
                             assignmentType := AssignmentType.escalation }) ∧
    AssignmentRepo.findById (AssignmentRepo.escalate stActive 0 "u2" none 60000).2 0
      = (AssignmentRepo.findById (AssignmentRepo.transfer stActive 0 "u2" none 60000).2 0).map
          (fun p => { p with status := AssignmentStatus.escalated }) ∧
    (AssignmentRepo.findById (AssignmentRepo.transfer stActive 0 "u2" none 60000).2 0).map
        (fun p => p.completedAt) = some (some 60000) ∧
    (AssignmentRepo.findById (AssignmentRepo.escalate stActive 0 "u2" none 60000).2 0).map
        (fun p => p.completedAt) = some (some 60000) :=
  C3_escalate_is_transfer_with_high_priority stActive 0 "u2" none 60000 baseRow rfl
